import Mathlib

/- A shallow embedding of `src/outputRepoRawContent.py`: a tool that clones a
   repository, writes a directory-structure listing, extracts each text file
   into a flattened `code_files` directory with a two-line header, and writes
   a processing summary.  File contents are modelled by their decode result
   (`text = some s` when the bytes decode as UTF-8, `none` otherwise); the
   size is the `os.path.getsize` result together with a flag telling whether
   that call succeeded; paths are lists of components joined by `/` (the
   POSIX separator, so `os.sep = '/'`).  External I/O errors other than the
   ones the script handles explicitly are not modelled. -/

namespace RepoTool

/-- A regular file encountered by `os.walk` over the cloned workspace, in
walk order.  `dirComponents` is the directory part of the path relative to
the workspace root, `name` the base name. -/
structure SrcFile where
  dirComponents : List String
  name : String
  size : Nat
  sizeOk : Bool
  text : Option String
deriving DecidableEq

/-- `os.path.relpath(file_path, repo_dir)`: the relative path with components
joined by the separator. -/
def relPathStr (f : SrcFile) : String :=
  String.intercalate "/" (f.dirComponents ++ [f.name])

/-- The components of the absolute `file_path = os.path.join(root, file)`:
the components `pre` of the workspace directory itself followed by the
relative components.  The script tests membership in `file_path.split(os.sep)`. -/
def allComps (pre : List String) (f : SrcFile) : List String :=
  pre ++ f.dirComponents ++ [f.name]

/-- `'.git' in file_path.split(os.sep)` (line 237). -/
def inGitDir (pre : List String) (f : SrcFile) : Bool :=
  decide (".git" ∈ allComps pre f)

/-- `'.github' in file_path.split(os.sep)` (line 250). -/
def inGithubDir (pre : List String) (f : SrcFile) : Bool :=
  decide (".github" ∈ allComps pre f)

/-- Python `s.endswith(suffix)`. -/
def strEndsWith (s suffix : String) : Bool :=
  suffix.data.isSuffixOf s.data

/-- The `git_related_files` list (lines 217-224). -/
def git_related_files : List String :=
  [".gitignore",
   ".gitattributes",
   ".gitmodules",
   ".github_ISSUE_TEMPLATE_bug_report.md",
   "CODEOWNERS",
   ".mailmap"]

/-- `file in git_related_files or any(rel_path.endswith(g) for g in
git_related_files)` (line 243). -/
def isGitRelated (f : SrcFile) : Bool :=
  decide (f.name ∈ git_related_files) ||
    git_related_files.any (fun g => strEndsWith (relPathStr f) g)

/-- The `binary_extensions` set (lines 199-214). -/
def binary_extensions : List String :=
  [".png", ".jpg", ".jpeg", ".gif", ".bmp", ".tiff", ".ico", ".svg", ".webp",
   ".mp3", ".mp4", ".wav", ".avi", ".mov", ".mkv", ".flv", ".ogg",
   ".pdf", ".ppt", ".pptx", ".xls", ".xlsx",
   ".zip", ".rar", ".7z", ".tar", ".gz", ".bz2",
   ".exe", ".dll", ".so", ".dylib", ".class", ".pyc", ".pyo",
   ".obj", ".o", ".a", ".lib", ".jar", ".whl", ".egg",
   ".db", ".sqlite", ".sqlite3", ".mdb", ".dat", ".bin",
   ".ttf", ".otf", ".woff", ".woff2", ".eot"]

/-- Python `str.lower`, restricted to the ASCII case used by file
extensions. -/
def lowerStr (s : String) : String :=
  String.mk (s.data.map Char.toLower)

/-- The extension part of `os.path.splitext(name)` for a base name (no
separators): the part from the last dot on, unless every character before
that dot is itself a dot (so `.gitignore` and `..txt` have no extension). -/
def splitextExt (name : String) : String :=
  let s := name.data
  let rev := s.reverse
  let extRev := rev.takeWhile (fun c => c ≠ '.')
  if extRev.length = s.length then ""
  else if (rev.drop (extRev.length + 1)).any (fun c => c ≠ '.') then
    String.mk ('.' :: extRev.reverse)
  else ""

/-- `file_ext in binary_extensions` after `os.path.splitext(file.lower())`
(lines 257-258). -/
def hasBinaryExt (f : SrcFile) : Bool :=
  decide (splitextExt (lowerStr f.name) ∈ binary_extensions)

/-- The outcome of the per-file decision chain of `extract_code_files`
(lines 232-306), in the order the script evaluates it. -/
inductive FileDecision where
  | inGitDir
  | skipGitFile
  | skipGithubDir
  | skipExt
  | skipSizeErr
  | skipSize (size : Nat)
  | skipDecode (size : Nat)
  | processed
deriving DecidableEq

/-- The per-file decision chain of `extract_code_files`, first match wins:
`.git` component (line 237), git-related name (line 243), `.github`
component (line 250), binary extension (line 258), `os.path.getsize`
failure (line 272), size above the limit (line 267), UTF-8 decode failure
(line 299), otherwise processed. -/
def classify (pre : List String) (maxB : Nat) (f : SrcFile) : FileDecision :=
  if inGitDir pre f then FileDecision.inGitDir
  else if isGitRelated f then FileDecision.skipGitFile
  else if inGithubDir pre f then FileDecision.skipGithubDir
  else if hasBinaryExt f then FileDecision.skipExt
  else if f.sizeOk = false then FileDecision.skipSizeErr
  else if f.size > maxB then FileDecision.skipSize f.size
  else match f.text with
    | none => FileDecision.skipDecode f.size
    | some _ => FileDecision.processed

/-- The `(rel_path, size)` pair appended to `skipped_files` for each skip
branch: sentinel size 0 for the git, extension and getsize-failure branches,
the true size for the oversized and decode-failure branches. -/
def skipRecordOf (pre : List String) (maxB : Nat) (f : SrcFile) :
    Option (String × Nat) :=
  match classify pre maxB f with
  | FileDecision.inGitDir => none
  | FileDecision.skipGitFile => some (relPathStr f, 0)
  | FileDecision.skipGithubDir => some (relPathStr f, 0)
  | FileDecision.skipExt => some (relPathStr f, 0)
  | FileDecision.skipSizeErr => some (relPathStr f, 0)
  | FileDecision.skipSize s => some (relPathStr f, s)
  | FileDecision.skipDecode s => some (relPathStr f, s)
  | FileDecision.processed => none

def isProcessedB (pre : List String) (maxB : Nat) (f : SrcFile) : Bool :=
  decide (classify pre maxB f = FileDecision.processed)

def isGitSkipD : FileDecision → Bool
  | FileDecision.skipGitFile => true
  | FileDecision.skipGithubDir => true
  | _ => false

def isExtSkipD : FileDecision → Bool
  | FileDecision.skipExt => true
  | _ => false

def isSizeSkipD : FileDecision → Bool
  | FileDecision.skipSize _ => true
  | _ => false

def isDecodeSkipD : FileDecision → Bool
  | FileDecision.skipDecode _ => true
  | _ => false

/-- `safe_name = rel_path.replace('/', '_').replace('\\', '_')` (line 278). -/
def flattenName (rel : String) : String :=
  String.mk (rel.data.map (fun c => if c = '/' ∨ c = '\\' then '_' else c))

/-- The two header lines written before the file body (lines 291-292). -/
def outHeader (rel ts : String) : String :=
  "// 文件路径: " ++ rel ++ "\n" ++ "// 提取时间: " ++ ts ++ "\n\n"

/-- The output-file write performed for a processed file: name `safe_name`,
content the two header lines followed by the decoded text verbatim
(lines 289-293).  `ts` stands for the formatted `datetime.now()`. -/
def writeOf (pre : List String) (maxB : Nat) (ts : String) (f : SrcFile) :
    Option (String × String) :=
  match classify pre maxB f, f.text with
  | FileDecision.processed, some s =>
      some (flattenName (relPathStr f), outHeader (relPathStr f) ts ++ s)
  | _, _ => none

/-- The observable result of `extract_code_files`: the `processed_files`
and `skipped_files` lists, the writes into the output directory in order,
and the four skip counters the script tracks (lines 227-230).  The script
returns `(processed_files, skipped_files, skipped_git_files)`. -/
structure ExtractResult where
  processed : List String
  skipped : List (String × Nat)
  writes : List (String × String)
  skippedGit : Nat
  skippedExt : Nat
  skippedSize : Nat
  skippedDecode : Nat
deriving DecidableEq

/-- `extract_code_files(repo_dir, output_dir, max_size_mb)` (lines 189-312),
walking `files` in `os.walk` order.  `pre` is the component list of
`repo_dir` itself and `ts` the formatted extraction time. -/
def extract_code_files (pre : List String) (ts : String)
    (files : List SrcFile) (max_size_mb : Nat) : ExtractResult :=
  let maxB := max_size_mb * 1024 * 1024
  { processed := (files.filter (fun f => isProcessedB pre maxB f)).map relPathStr
    skipped := files.filterMap (fun f => skipRecordOf pre maxB f)
    writes := files.filterMap (fun f => writeOf pre maxB ts f)
    skippedGit := files.countP (fun f => isGitSkipD (classify pre maxB f))
    skippedExt := files.countP (fun f => isExtSkipD (classify pre maxB f))
    skippedSize := files.countP (fun f => isSizeSkipD (classify pre maxB f))
    skippedDecode := files.countP (fun f => isDecodeSkipD (classify pre maxB f)) }

/-- Applying one write to a directory state: overwrite the entry with the
same name if present, otherwise add the file. -/
def applyWrite (fs : List (String × String)) (w : String × String) :
    List (String × String) :=
  if fs.any (fun e => e.1 == w.1) then
    fs.map (fun e => if e.1 == w.1 then w else e)
  else fs ++ [w]

/-- The directory contents after a sequence of file writes. -/
def finalFiles (ws : List (String × String)) : List (String × String) :=
  ws.foldl applyWrite []

/-- One `(root, dirs, files)` entry yielded by `os.walk` in
`generate_file_structure`: the components of `os.path.relpath(root,
repo_dir)` (empty for the root itself, where `relpath` is `'.'`) and the
unsorted file names. -/
structure WalkDir where
  relComps : List String
  files : List String
deriving DecidableEq

def dupString (s : String) (n : Nat) : String :=
  String.join (List.replicate n s)

def insertStr (x : String) : List String → List String
  | [] => [x]
  | y :: ys => if x ≤ y then x :: y :: ys else y :: insertStr x ys

/-- Python `sorted` on strings. -/
def sortStrings : List String → List String
  | [] => []
  | x :: xs => insertStr x (sortStrings xs)

/-- The lines emitted for one `os.walk` entry (lines 173-187): the directory
line (indented by the depth, base name suffixed with `/`, omitted for the
root) followed by one line per file in sorted order. -/
def dirLines (d : WalkDir) : String :=
  let level := d.relComps.length
  let indent := dupString "  " level
  let subIndent := dupString "  " (level + 1)
  (if d.relComps = [] then "" else indent ++ d.relComps.getLastD "" ++ "/\n") ++
    String.join ((sortStrings d.files).map (fun file => subIndent ++ file ++ "\n"))

/-- `generate_file_structure(repo_dir, output_file)` (lines 165-187): the
full text written to the structure file, for the traversal `tree` and the
formatted `datetime.now()` value `genTime`. -/
def generate_file_structure (tree : List WalkDir) (genTime : String) : String :=
  "仓库文件目录结构\n" ++ "生成时间: " ++ genTime ++ "\n\n" ++
    String.join (tree.map dirLines)

/-- Python `s.strip('/')` at the character-list level. -/
def stripSlashes (s : String) : List Char :=
  ((s.data.dropWhile (fun c => c = '/')).reverse.dropWhile (fun c => c = '/')).reverse

/-- Python `str.split(sep)` for a one-character separator: the empty string
yields `[""]` and adjacent separators yield empty pieces. -/
def splitOnCharAux (c : Char) : List Char → List (List Char)
  | [] => [[]]
  | x :: xs =>
    match splitOnCharAux c xs with
    | [] => [[]]
    | h :: t => if x = c then [] :: h :: t else (x :: h) :: t

/-- `urlparse(repo_url).path.strip('/').split('/')` (line 47). -/
def pathParts (urlPath : String) : List String :=
  (splitOnCharAux '/' (stripSlashes urlPath)).map (fun l => String.mk l)

/-- Stripping a trailing `.git` (lines 53-54). -/
def stripGitSuffix (s : String) : String :=
  if strEndsWith s ".git" then String.mk (s.data.take (s.data.length - 4)) else s

/-- `get_repo_name_from_url` (lines 44-56) on the path component that
`urlparse` extracts from the repository URL: `None` when the stripped path
has fewer than two `/`-separated parts, otherwise the second part with a
trailing `.git` removed. -/
def get_repo_name_from_url (urlPath : String) : Option String :=
  match pathParts urlPath with
  | _ :: repoPart :: _ => some (stripGitSuffix repoPart)
  | _ => none

/-- The name `get_repo_name_from_url` derives when it succeeds, `""`
otherwise. -/
def derivedRepoName (urlPath : String) : String :=
  match pathParts urlPath with
  | _ :: repoPart :: _ => stripGitSuffix repoPart
  | _ => ""

/-- The breakdown recomputed by `process_repository` for the summary file
(lines 405-407): records with sentinel size 0 are counted as
extension-skipped, records above the size limit as oversized, and the
remainder (an arbitrary-precision integer, possibly negative) as
`skipped_others`. -/
def summaryBreakdown (skipped : List (String × Nat)) (skippedGit : Nat)
    (max_size_mb : Nat) : Nat × Nat × Int :=
  let byExt := skipped.countP (fun r => decide (r.2 = 0))
  let bySize := skipped.countP (fun r => decide (r.2 > max_size_mb * 1024 * 1024))
  let others : Int :=
    (skipped.length : Int) - (byExt : Int) - (bySize : Int) - (skippedGit : Int)
  (byExt, bySize, others)

/-- The `_processing_summary.txt` content (lines 394-420).  `startS`,
`endS` and `durS` are the formatted timestamps and two-decimal duration,
and `mbStr` formats a byte count as `%.2f` mebibytes; floating-point
formatting itself is outside the embedding. -/
def summaryContent (name url startS endS durS : String) (mbStr : Nat → String)
    (processed : List String) (skipped : List (String × Nat))
    (skippedGit : Nat) (max_size_mb : Nat) : String :=
  let b := summaryBreakdown skipped skippedGit max_size_mb
  let large := skipped.filter (fun r => decide (r.2 > max_size_mb * 1024 * 1024))
  "仓库处理摘要: " ++ name ++ "\n" ++
  "源 URL: " ++ url ++ "\n" ++
  "开始时间: " ++ startS ++ "\n" ++
  "完成时间: " ++ endS ++ "\n" ++
  "处理时长: " ++ durS ++ " 秒\n\n" ++
  "已处理文件数: " ++ toString processed.length ++ "\n" ++
  "跳过的文件总数: " ++ toString skipped.length ++ "\n\n" ++
  "跳过文件详情:\n" ++
  "  Git相关文件: " ++ toString skippedGit ++ "个\n" ++
  "  基于文件扩展名: " ++ toString b.1 ++ "个\n" ++
  "  文件过大 (>" ++ toString max_size_mb ++ "MB): " ++ toString b.2.1 ++ "个\n" ++
  "  解码错误或其他原因: " ++ toString b.2.2 ++ "个\n\n" ++
  (if large.isEmpty then "" else
    "跳过的大文件 (>" ++ toString max_size_mb ++ "MB):\n" ++
      String.join (large.map (fun r => "  " ++ r.1 ++ ": " ++ mbStr r.2 ++ " MB\n")))

/-- The observable effect of `process_repository` on the permanent output
directory: whether the per-repository subdirectory was created and the
files written beneath the output base, as `(relative path, content)` in
write order. -/
structure RepoAction where
  outputDirCreated : Bool
  writes : List (String × String)
deriving DecidableEq

/-- `process_repository(repo_url, output_base_dir)` (lines 314-444).
`urlPath` is the path component `urlparse` extracts from `repoUrl`;
`cloneOk` the result of `clone_repository`; `tmpPre` the components of the
temporary clone directory; `tree` and `files` the walk of the cloned tree;
the string arguments are the formatted timestamps the script produces.  If
the name cannot be derived the function returns before creating the output
directory; if the clone fails it writes only the failure-record file;
otherwise it writes the structure file, the empty general summary, the
extracted code files and the processing summary. -/
def process_repository (repoUrl urlPath : String) (cloneOk : Bool)
    (tmpPre : List String) (tree : List WalkDir) (files : List SrcFile)
    (cloneFailTime nowStr startS endS durS extractTs : String)
    (mbStr : Nat → String) : RepoAction :=
  match get_repo_name_from_url urlPath with
  | none => { outputDirCreated := false, writes := [] }
  | some repo_name =>
    if repo_name = "" then { outputDirCreated := false, writes := [] }
    else if cloneOk = false then
      { outputDirCreated := true
        writes := [(repo_name ++ "/" ++ repo_name ++ "_clone_failed.txt",
          "克隆失败时间: " ++ cloneFailTime ++ "\n" ++
          "仓库URL: " ++ repoUrl ++ "\n\n" ++
          "错误信息: 所有克隆方法都失败\n")] }
    else
      let r := extract_code_files tmpPre extractTs files 15
      { outputDirCreated := true
        writes :=
          [(repo_name ++ "/" ++ repo_name ++ "_file_structure.txt",
              generate_file_structure tree nowStr),
           (repo_name ++ "/" ++ repo_name ++ "_general_summary.txt", "")] ++
          r.writes.map (fun w => (repo_name ++ "/code_files/" ++ w.1, w.2)) ++
          [(repo_name ++ "/" ++ repo_name ++ "_processing_summary.txt",
              summaryContent repo_name repoUrl startS endS durS mbStr
                r.processed r.skipped r.skippedGit 15)] }

end RepoTool

namespace RepoTool

theorem data_append (a b : String) : (a ++ b).data = a.data ++ b.data := rfl

theorem skipRecordOf_fst {pre : List String} {maxB : Nat} {f : SrcFile}
    {r : String × Nat} (h : skipRecordOf pre maxB f = some r) :
    r.1 = relPathStr f := by
  unfold skipRecordOf at h
  split at h <;> cases h <;> rfl

theorem skipRecordOf_none_of_processed {pre : List String} {maxB : Nat}
    {f : SrcFile} (h : classify pre maxB f = FileDecision.processed) :
    skipRecordOf pre maxB f = none := by
  simp [skipRecordOf, h]

theorem skipRecordOf_ne_processed {pre : List String} {maxB : Nat} {f : SrcFile}
    {r : String × Nat} (h : skipRecordOf pre maxB f = some r) :
    classify pre maxB f ≠ FileDecision.processed := by
  intro hc
  rw [skipRecordOf_none_of_processed hc] at h
  exact Option.noConfusion h

theorem classify_of_inGitDir {pre : List String} {maxB : Nat} {f : SrcFile}
    (h : inGitDir pre f = true) : classify pre maxB f = FileDecision.inGitDir := by
  unfold classify
  rw [h]
  simp

theorem classify_ne_inGitDir {pre : List String} {maxB : Nat} {f : SrcFile}
    (h : inGitDir pre f = false) : classify pre maxB f ≠ FileDecision.inGitDir := by
  unfold classify
  rw [h]
  simp only [Bool.false_eq_true, if_false]
  (repeat' split) <;> simp

theorem classify_total {pre : List String} {maxB : Nat} {f : SrcFile}
    (h : inGitDir pre f = false) :
    classify pre maxB f = FileDecision.processed ∨
      (skipRecordOf pre maxB f).isSome = true := by
  cases hc : classify pre maxB f <;> simp [skipRecordOf, hc]
  exact classify_ne_inGitDir h hc

theorem classify_processed_text {pre : List String} {maxB : Nat} {f : SrcFile}
    (h : classify pre maxB f = FileDecision.processed) : ∃ s, f.text = some s := by
  cases hx : f.text with
  | some s => exact ⟨s, rfl⟩
  | none =>
    exfalso
    unfold classify at h
    rw [hx] at h
    cases h1 : inGitDir pre f <;> cases h2 : isGitRelated f <;>
      cases h3 : inGithubDir pre f <;> cases h4 : hasBinaryExt f <;>
      cases h5 : f.sizeOk <;> by_cases h6 : f.size > maxB <;> simp_all

theorem inGitDir_iff {pre : List String} {f : SrcFile} (hpre : ".git" ∉ pre) :
    inGitDir pre f = true ↔ ".git" ∈ f.dirComponents ++ [f.name] := by
  simp [inGitDir, allComps, List.mem_append, hpre]

theorem skipped_map_fst (pre : List String) (maxB : Nat) (files : List SrcFile) :
    (files.filterMap (fun f => skipRecordOf pre maxB f)).map Prod.fst
      = (files.filter (fun f => (skipRecordOf pre maxB f).isSome)).map relPathStr := by
  induction files with
  | nil => rfl
  | cons f fs ih =>
    cases h : skipRecordOf pre maxB f with
    | none => simp [List.filterMap_cons, List.filter_cons, h, ih]
    | some r =>
      have hr := skipRecordOf_fst h
      simp [List.filterMap_cons, List.filter_cons, h, ih, hr]

end RepoTool

namespace RepoTool

/-- A file above the 15 MiB limit whose extension is in the binary denylist:
the extension rule fires before the size check. -/
def bigPng : SrcFile := ⟨[], "big.png", 15 * 1024 * 1024 + 1, true, some "x"⟩

/-- A file above the 15 MiB limit that no earlier rule matches. -/
def bigTxt : SrcFile := ⟨["docs"], "big.txt", 15 * 1024 * 1024 + 1, true, some "x"⟩

/-- C1 (as stated) is false: the decision chain tests the binary-extension
denylist before the size limit, so an oversized `big.png` is recorded with
sentinel size 0 by the extension rule, not as oversized with its true
size. -/
theorem spec_c1_counterexample :
    bigPng.size > 15 * 1024 * 1024 ∧
    classify [] (15 * 1024 * 1024) bigPng = FileDecision.skipExt ∧
    (extract_code_files [] "T" [bigPng] 15).skipped = [("big.png", 0)] ∧
    (extract_code_files [] "T" [bigPng] 15).skippedSize = 0 ∧
    (extract_code_files [] "T" [bigPng] 15).skippedExt = 1 := by decide

/-- C1 (amended): a regular file whose readable size strictly exceeds
`max_size` and which no earlier rule of the fixed decision order matches
(no `.git` or `.github` path component, no git-related name, extension not
in the binary denylist) is skipped as oversized with its true size
recorded, regardless of its content. -/
theorem spec_c1_oversized (pre : List String) (maxMb : Nat) (f : SrcFile)
    (h1 : inGitDir pre f = false) (h2 : isGitRelated f = false)
    (h3 : inGithubDir pre f = false) (h4 : hasBinaryExt f = false)
    (h5 : f.sizeOk = true) (h6 : f.size > maxMb * 1024 * 1024) :
    classify pre (maxMb * 1024 * 1024) f = FileDecision.skipSize f.size ∧
    skipRecordOf pre (maxMb * 1024 * 1024) f = some (relPathStr f, f.size) ∧
    ∀ t, classify pre (maxMb * 1024 * 1024) { f with text := t }
        = FileDecision.skipSize f.size := by
  have hc : ∀ t : Option String,
      classify pre (maxMb * 1024 * 1024) { f with text := t }
        = FileDecision.skipSize f.size := by
    intro t
    unfold classify
    have e1 : inGitDir pre { f with text := t } = false := h1
    have e2 : isGitRelated { f with text := t } = false := h2
    have e3 : inGithubDir pre { f with text := t } = false := h3
    have e4 : hasBinaryExt { f with text := t } = false := h4
    have e5 : ({ f with text := t } : SrcFile).sizeOk = true := h5
    have e6 : ({ f with text := t } : SrcFile).size = f.size := rfl
    rw [e1, e2, e3, e4, e5, e6]
    simp [h6]
  have hcf : classify pre (maxMb * 1024 * 1024) f = FileDecision.skipSize f.size :=
    hc f.text
  exact ⟨hcf, by simp [skipRecordOf, hcf], hc⟩

/-- C1 witness: `docs/big.txt` of 15 MiB + 1 byte is skipped as oversized
with its true size. -/
theorem spec_c1_witness :
    inGitDir [] bigTxt = false ∧ isGitRelated bigTxt = false ∧
    inGithubDir [] bigTxt = false ∧ hasBinaryExt bigTxt = false ∧
    bigTxt.sizeOk = true ∧ bigTxt.size > 15 * 1024 * 1024 ∧
    (classify [] (15 * 1024 * 1024) bigTxt = FileDecision.skipSize bigTxt.size ∧
     skipRecordOf [] (15 * 1024 * 1024) bigTxt = some (relPathStr bigTxt, bigTxt.size) ∧
     ∀ t, classify [] (15 * 1024 * 1024) { bigTxt with text := t }
        = FileDecision.skipSize bigTxt.size) :=
  ⟨by decide, by decide, by decide, by decide, by decide, by decide,
   spec_c1_oversized [] 15 bigTxt (by decide) (by decide) (by decide) (by decide)
     (by decide) (by decide)⟩

/-- A valid-text file with a denylisted extension inside the `.github`
directory: the `.github` rule fires before the extension rule. -/
def githubLogo : SrcFile := ⟨[".github"], "logo.png", 10, true, some "text"⟩

/-- C7 (as stated) is false: a denylisted-extension file under `.github`
is skipped by the git-metadata rule, which is tested first, not by the
extension rule. -/
theorem spec_c7_counterexample :
    hasBinaryExt githubLogo = true ∧
    classify [] (15 * 1024 * 1024) githubLogo = FileDecision.skipGithubDir ∧
    (extract_code_files [] "T" [githubLogo] 15).skippedExt = 0 ∧
    (extract_code_files [] "T" [githubLogo] 15).skippedGit = 1 := by decide

/-- C7 (amended): a regular file whose lowercased extension is in the
binary denylist and which the earlier git-metadata rules do not match (no
`.git` or `.github` path component, no git-related name) is skipped as
extension-filtered with sentinel size 0, and the decision never looks at
the content, even when the bytes are valid UTF-8 text. -/
theorem spec_c7_extension (pre : List String) (maxB : Nat) (f : SrcFile)
    (h1 : inGitDir pre f = false) (h2 : isGitRelated f = false)
    (h3 : inGithubDir pre f = false) (h4 : hasBinaryExt f = true) :
    classify pre maxB f = FileDecision.skipExt ∧
    skipRecordOf pre maxB f = some (relPathStr f, 0) ∧
    ∀ t, classify pre maxB { f with text := t } = FileDecision.skipExt := by
  have hc : ∀ t : Option String,
      classify pre maxB { f with text := t } = FileDecision.skipExt := by
    intro t
    unfold classify
    have e1 : inGitDir pre { f with text := t } = false := h1
    have e2 : isGitRelated { f with text := t } = false := h2
    have e3 : inGithubDir pre { f with text := t } = false := h3
    have e4 : hasBinaryExt { f with text := t } = true := h4
    rw [e1, e2, e3, e4]
    simp
  have hcf : classify pre maxB f = FileDecision.skipExt := hc f.text
  exact ⟨hcf, by simp [skipRecordOf, hcf], hc⟩

/-- A valid-UTF-8 file with a denylisted extension. -/
def pngText : SrcFile := ⟨["assets"], "diagram.png", 10, true, some "hello"⟩

/-- C7 witness: `assets/diagram.png` holding valid text is skipped as
extension-filtered with sentinel size 0 whatever its content. -/
theorem spec_c7_witness :
    inGitDir [] pngText = false ∧ isGitRelated pngText = false ∧
    inGithubDir [] pngText = false ∧ hasBinaryExt pngText = true ∧
    (classify [] (15 * 1024 * 1024) pngText = FileDecision.skipExt ∧
     skipRecordOf [] (15 * 1024 * 1024) pngText = some (relPathStr pngText, 0) ∧
     ∀ t, classify [] (15 * 1024 * 1024) { pngText with text := t }
        = FileDecision.skipExt) :=
  ⟨by decide, by decide, by decide, by decide,
   spec_c7_extension [] (15 * 1024 * 1024) pngText (by decide) (by decide)
     (by decide) (by decide)⟩

/-- C10: the git-related-filename rule matches by relative-path suffix, so
any file outside a `.git` component whose relative path ends with one of
the six listed names is skipped as git-metadata with sentinel size 0. -/
theorem spec_c10_git_suffix (pre : List String) (maxB : Nat) (f : SrcFile)
    (g : String) (hg : g ∈ git_related_files)
    (hsuf : strEndsWith (relPathStr f) g = true)
    (hgit : inGitDir pre f = false) :
    classify pre maxB f = FileDecision.skipGitFile ∧
    skipRecordOf pre maxB f = some (relPathStr f, 0) := by
  have hrel : isGitRelated f = true := by
    unfold isGitRelated
    have ha : git_related_files.any (fun g2 => strEndsWith (relPathStr f) g2) = true :=
      List.any_eq_true.mpr ⟨g, hg, hsuf⟩
    rw [ha]
    simp
  have hc : classify pre maxB f = FileDecision.skipGitFile := by
    unfold classify
    rw [hgit, hrel]
    simp
  exact ⟨hc, by simp [skipRecordOf, hc]⟩

/-- A file whose base name merely ends with `CODEOWNERS`. -/
def xcodeowners : SrcFile := ⟨["src"], "XCODEOWNERS", 5, true, some "x"⟩

/-- C10 witness: `src/XCODEOWNERS` ends with the listed name `CODEOWNERS`
and is skipped as git-metadata with sentinel size 0. -/
theorem spec_c10_witness :
    "CODEOWNERS" ∈ git_related_files ∧
    strEndsWith (relPathStr xcodeowners) "CODEOWNERS" = true ∧
    inGitDir [] xcodeowners = false ∧
    (classify [] (15 * 1024 * 1024) xcodeowners = FileDecision.skipGitFile ∧
     skipRecordOf [] (15 * 1024 * 1024) xcodeowners
        = some (relPathStr xcodeowners, 0)) :=
  ⟨by decide, by decide, by decide,
   spec_c10_git_suffix [] (15 * 1024 * 1024) xcodeowners "CODEOWNERS"
     (by decide) (by decide) (by decide)⟩

/-- A workspace holding a single `.gitignore` file. -/
def gitignoreOnly : List SrcFile := [⟨[], ".gitignore", 12, true, some "node_modules"⟩]

/-- C3 is a code bug: the summary recomputes the breakdown from sentinel
sizes (lines 405-407), so a single `.gitignore` workspace is reported with
extension-filtered = 1 (actual extension skips: 0) and a negative
decode-or-other count of -1, even though the extractor's own counters
(logged at line 310) are git = 1, extension = 0, size = 0, decode = 0. -/
theorem spec_c3_breakdown_bug :
    (extract_code_files [] "T" gitignoreOnly 15).skipped = [(".gitignore", 0)] ∧
    (extract_code_files [] "T" gitignoreOnly 15).skippedGit = 1 ∧
    (extract_code_files [] "T" gitignoreOnly 15).skippedExt = 0 ∧
    (extract_code_files [] "T" gitignoreOnly 15).skippedSize = 0 ∧
    (extract_code_files [] "T" gitignoreOnly 15).skippedDecode = 0 ∧
    summaryBreakdown (extract_code_files [] "T" gitignoreOnly 15).skipped
        (extract_code_files [] "T" gitignoreOnly 15).skippedGit 15
      = (1, 0, -1) := by decide

/-- The file `a/b/c.py` with content `print(1)`. -/
def fileABC : SrcFile := ⟨["a", "b"], "c.py", 8, true, some "print(1)"⟩

/-- C5: the file at relative path `a/b/c.py` with UTF-8 content `print(1)`
is written to the flattened output name `a_b_c.py`, whose body is the
relative-path header line, the extraction-timestamp header line, and then
`print(1)` verbatim; `a/b/c.py` is appended to the processed list. -/
theorem spec_c5_flatten_roundtrip (ts : String) :
    (extract_code_files [] ts [fileABC] 15).writes
        = [("a_b_c.py",
            "// 文件路径: a/b/c.py\n// 提取时间: " ++ ts ++ "\n\n" ++ "print(1)")] ∧
    (extract_code_files [] ts [fileABC] 15).processed = ["a/b/c.py"] ∧
    (extract_code_files [] ts [fileABC] 15).skipped = ([] : List (String × Nat)) :=
  ⟨rfl, rfl, rfl⟩

end RepoTool

namespace RepoTool

/-- C2 (as stated) is false: the structure report embeds the generation
timestamp in its header, so two runs with different `datetime.now()` values
differ. -/
theorem spec_c2_counterexample :
    ¬ (generate_file_structure [⟨[], ["a.txt"]⟩] "2025-01-01 00:00:00"
        = generate_file_structure [⟨[], ["a.txt"]⟩] "2025-01-01 00:00:01") := by
  decide

/-- C2 (amended): over the same unmodified tree the structure report is
byte-identical exactly when the generation timestamps recorded in the
header coincide; everything apart from that timestamp is determined by the
tree alone. -/
theorem spec_c2_structure_identical_iff (tree : List WalkDir) (t1 t2 : String) :
    generate_file_structure tree t1 = generate_file_structure tree t2 ↔ t1 = t2 := by
  constructor
  · intro h
    have hd := congrArg String.data h
    simp only [generate_file_structure, data_append] at hd
    have h3 := List.append_cancel_right hd
    have h4 := List.append_cancel_right h3
    have h5 := List.append_cancel_left h4
    cases t1
    cases t2
    exact congrArg String.mk h5
  · intro h
    rw [h]

/-- C4: the processed list and the skipped list of `extract_code_files`
are duplicate-free and disjoint, and together they cover exactly the
regular files of the workspace that have no `.git` path component. -/
theorem spec_c4_partition (pre : List String) (ts : String) (files : List SrcFile)
    (hpre : ".git" ∉ pre)
    (hnd : (files.map relPathStr).Nodup) :
    ((extract_code_files pre ts files 15).processed ++
        (extract_code_files pre ts files 15).skipped.map Prod.fst).Nodup ∧
    (∀ p, p ∈ (extract_code_files pre ts files 15).processed →
        p ∉ (extract_code_files pre ts files 15).skipped.map Prod.fst) ∧
    (∀ p, (p ∈ (extract_code_files pre ts files 15).processed ∨
        p ∈ (extract_code_files pre ts files 15).skipped.map Prod.fst) ↔
      ∃ f, f ∈ files ∧ ".git" ∉ f.dirComponents ++ [f.name] ∧ relPathStr f = p) := by
  have hP : (extract_code_files pre ts files 15).processed
      = (files.filter (fun f => isProcessedB pre (15 * 1024 * 1024) f)).map relPathStr := rfl
  have hS : (extract_code_files pre ts files 15).skipped.map Prod.fst
      = (files.filter (fun f =>
          (skipRecordOf pre (15 * 1024 * 1024) f).isSome)).map relPathStr := by
    have h0 : (extract_code_files pre ts files 15).skipped
        = files.filterMap (fun f => skipRecordOf pre (15 * 1024 * 1024) f) := rfl
    rw [h0, skipped_map_fst]
  have inj : ∀ x, x ∈ files → ∀ y, y ∈ files → relPathStr x = relPathStr y → x = y :=
    fun x hx y hy hf => List.inj_on_of_nodup_map hnd hx hy hf
  have disj : ∀ p, p ∈ (extract_code_files pre ts files 15).processed →
      p ∉ (extract_code_files pre ts files 15).skipped.map Prod.fst := by
    intro p hp hs
    rw [hP] at hp
    rw [hS] at hs
    obtain ⟨f1, hf1, hrel1⟩ := List.mem_map.mp hp
    obtain ⟨f2, hf2, hrel2⟩ := List.mem_map.mp hs
    have m1 := List.mem_filter.mp hf1
    have m2 := List.mem_filter.mp hf2
    have e : f1 = f2 := inj f1 m1.1 f2 m2.1 (hrel1.trans hrel2.symm)
    have hc1 : classify pre (15 * 1024 * 1024) f1 = FileDecision.processed := by
      have := m1.2
      simpa [isProcessedB] using this
    have hn : skipRecordOf pre (15 * 1024 * 1024) f2 = none := by
      rw [← e]
      exact skipRecordOf_none_of_processed hc1
    have hsome := m2.2
    rw [hn] at hsome
    simp at hsome
  refine ⟨?_, disj, ?_⟩
  · rw [hP, hS]
    apply List.Nodup.append
    · exact List.Nodup.sublist (List.Sublist.map relPathStr (List.filter_sublist files)) hnd
    · exact List.Nodup.sublist (List.Sublist.map relPathStr (List.filter_sublist files)) hnd
    · intro a ha hb
      exact disj a (by rw [hP]; exact ha) (by rw [hS]; exact hb)
  · intro p
    constructor
    · rintro (hp | hs)
      · rw [hP] at hp
        obtain ⟨f1, hf1, hrel1⟩ := List.mem_map.mp hp
        have m1 := List.mem_filter.mp hf1
        refine ⟨f1, m1.1, ?_, hrel1⟩
        intro hmem
        have hgit : inGitDir pre f1 = true := (inGitDir_iff hpre).mpr hmem
        have hcg := @classify_of_inGitDir pre (15 * 1024 * 1024) f1 hgit
        have hc1 : classify pre (15 * 1024 * 1024) f1 = FileDecision.processed := by
          have := m1.2
          simpa [isProcessedB] using this
        rw [hc1] at hcg
        exact FileDecision.noConfusion hcg
      · rw [hS] at hs
        obtain ⟨f2, hf2, hrel2⟩ := List.mem_map.mp hs
        have m2 := List.mem_filter.mp hf2
        refine ⟨f2, m2.1, ?_, hrel2⟩
        intro hmem
        have hgit : inGitDir pre f2 = true := (inGitDir_iff hpre).mpr hmem
        have hcg := @classify_of_inGitDir pre (15 * 1024 * 1024) f2 hgit
        obtain ⟨r, hr⟩ := Option.isSome_iff_exists.mp m2.2
        simp [skipRecordOf, hcg] at hr
    · rintro ⟨f, hf, hgitmem, rfl⟩
      have hgd : inGitDir pre f = false := by
        cases hx : inGitDir pre f with
        | false => rfl
        | true => exact absurd ((inGitDir_iff hpre).mp hx) hgitmem
      rcases @classify_total pre (15 * 1024 * 1024) f hgd with hcp | hcs
      · left
        rw [hP]
        exact List.mem_map.mpr
          ⟨f, List.mem_filter.mpr ⟨hf, by simp [isProcessedB, hcp]⟩, rfl⟩
      · right
        rw [hS]
        exact List.mem_map.mpr ⟨f, List.mem_filter.mpr ⟨hf, hcs⟩, rfl⟩

/-- C4 witness: a two-file workspace with one processed and one skipped
file partitions exactly. -/
theorem spec_c4_witness :
    (".git" ∉ ([] : List String)) ∧
    (([fileABC, bigPng].map relPathStr).Nodup) ∧
    (((extract_code_files [] "T" [fileABC, bigPng] 15).processed ++
        (extract_code_files [] "T" [fileABC, bigPng] 15).skipped.map Prod.fst).Nodup ∧
     (∀ p, p ∈ (extract_code_files [] "T" [fileABC, bigPng] 15).processed →
        p ∉ (extract_code_files [] "T" [fileABC, bigPng] 15).skipped.map Prod.fst) ∧
     (∀ p, (p ∈ (extract_code_files [] "T" [fileABC, bigPng] 15).processed ∨
        p ∈ (extract_code_files [] "T" [fileABC, bigPng] 15).skipped.map Prod.fst) ↔
       ∃ f, f ∈ [fileABC, bigPng] ∧ ".git" ∉ f.dirComponents ++ [f.name] ∧
         relPathStr f = p)) :=
  ⟨by decide, by decide, spec_c4_partition [] "T" [fileABC, bigPng] (by decide) (by decide)⟩

/-- C6: when two files of the workspace flatten to the same output name
and both are processed, the output directory ends up with a single file
under that name holding the later-processed file's annotated content,
while both relative paths appear in the processed list. -/
theorem spec_c6_collision (ts : String) (f1 f2 : SrcFile) (c2 : String)
    (hp1 : classify [] (15 * 1024 * 1024) f1 = FileDecision.processed)
    (hp2 : classify [] (15 * 1024 * 1024) f2 = FileDecision.processed)
    (ht2 : f2.text = some c2)
    (hcol : flattenName (relPathStr f1) = flattenName (relPathStr f2)) :
    finalFiles (extract_code_files [] ts [f1, f2] 15).writes
        = [(flattenName (relPathStr f2), outHeader (relPathStr f2) ts ++ c2)] ∧
    (extract_code_files [] ts [f1, f2] 15).processed
        = [relPathStr f1, relPathStr f2] := by
  obtain ⟨c1, ht1⟩ := classify_processed_text hp1
  have w1 : writeOf [] (15 * 1024 * 1024) ts f1
      = some (flattenName (relPathStr f1), outHeader (relPathStr f1) ts ++ c1) := by
    simp [writeOf, hp1, ht1]
  have w2 : writeOf [] (15 * 1024 * 1024) ts f2
      = some (flattenName (relPathStr f2), outHeader (relPathStr f2) ts ++ c2) := by
    simp [writeOf, hp2, ht2]
  have hw : (extract_code_files [] ts [f1, f2] 15).writes
      = [(flattenName (relPathStr f1), outHeader (relPathStr f1) ts ++ c1),
         (flattenName (relPathStr f2), outHeader (relPathStr f2) ts ++ c2)] := by
    have h0 : (extract_code_files [] ts [f1, f2] 15).writes
        = [f1, f2].filterMap (fun f => writeOf [] (15 * 1024 * 1024) ts f) := rfl
    rw [h0]
    simp [List.filterMap_cons, w1, w2]
  constructor
  · rw [hw]
    unfold finalFiles
    simp only [List.foldl]
    unfold applyWrite
    simp [hcol]
  · have h0 : (extract_code_files [] ts [f1, f2] 15).processed
        = ([f1, f2].filter (fun f => isProcessedB [] (15 * 1024 * 1024) f)).map relPathStr := rfl
    rw [h0]
    simp [List.filter_cons, isProcessedB, hp1, hp2]

/-- A root file whose name already contains the underscore. -/
def fileXY : SrcFile := ⟨[], "x_y.py", 3, true, some "one"⟩

/-- A nested file that flattens to the same output name as `x_y.py`. -/
def fileXslashY : SrcFile := ⟨["x"], "y.py", 3, true, some "two"⟩

/-- C6 witness: with `x_y.py` and `x/y.py` both present, one output file
remains, holding the content extracted from `x/y.py`, and both paths are
in the processed list. -/
theorem spec_c6_witness :
    classify [] (15 * 1024 * 1024) fileXY = FileDecision.processed ∧
    classify [] (15 * 1024 * 1024) fileXslashY = FileDecision.processed ∧
    flattenName (relPathStr fileXY) = flattenName (relPathStr fileXslashY) ∧
    finalFiles (extract_code_files [] "T" [fileXY, fileXslashY] 15).writes
        = [(flattenName (relPathStr fileXslashY),
            outHeader (relPathStr fileXslashY) "T" ++ "two")] ∧
    (extract_code_files [] "T" [fileXY, fileXslashY] 15).processed
        = [relPathStr fileXY, relPathStr fileXslashY] :=
  ⟨by decide, by decide, by decide,
   (spec_c6_collision "T" fileXY fileXslashY "two" (by decide) (by decide)
     (by decide) (by decide)).1,
   (spec_c6_collision "T" fileXY fileXslashY "two" (by decide) (by decide)
     (by decide) (by decide)).2⟩

/-- C8: when every clone strategy fails for a repository whose name
derivation succeeds, the per-repository output directory is created and
receives exactly one write, the `<name>_clone_failed.txt` file holding the
timestamp, the URL and the fixed error message; no structure, summary or
`code_files` write happens, and the function returns normally. -/
theorem spec_c8_clone_failed (repoUrl urlPath : String)
    (tmpPre : List String) (tree : List WalkDir) (files : List SrcFile)
    (ct nowStr startS endS durS extractTs : String) (mbStr : Nat → String)
    (n : String) (hname : get_repo_name_from_url urlPath = some n)
    (hne : n ≠ "") :
    process_repository repoUrl urlPath false tmpPre tree files
        ct nowStr startS endS durS extractTs mbStr
      = { outputDirCreated := true
          writes := [(n ++ "/" ++ n ++ "_clone_failed.txt",
            "克隆失败时间: " ++ ct ++ "\n" ++ "仓库URL: " ++ repoUrl ++ "\n\n" ++
            "错误信息: 所有克隆方法都失败\n")] } := by
  unfold process_repository
  rw [hname]
  simp [hne]

/-- C8 witness: a failed clone of `owner/repo.git` leaves exactly the
failure-record file. -/
theorem spec_c8_witness :
    get_repo_name_from_url "/owner/repo.git" = some "repo" ∧
    ("repo" : String) ≠ "" ∧
    process_repository "https://github.com/owner/repo.git" "/owner/repo.git" false
        [] [] [] "c" "n" "s" "e" "d" "x" (fun _ => "")
      = { outputDirCreated := true
          writes := [("repo" ++ "/" ++ "repo" ++ "_clone_failed.txt",
            "克隆失败时间: " ++ "c" ++ "\n" ++
            "仓库URL: " ++ "https://github.com/owner/repo.git" ++ "\n\n" ++
            "错误信息: 所有克隆方法都失败\n")] } :=
  ⟨by decide, by decide,
   spec_c8_clone_failed "https://github.com/owner/repo.git" "/owner/repo.git"
     [] [] [] "c" "n" "s" "e" "d" "x" (fun _ => "") "repo" (by decide) (by decide)⟩

theorem get_eq_derived (urlPath : String) :
    get_repo_name_from_url urlPath
      = if 2 ≤ (pathParts urlPath).length then some (derivedRepoName urlPath)
        else none := by
  unfold get_repo_name_from_url derivedRepoName
  cases hp : pathParts urlPath with
  | nil => simp
  | cons a t =>
    cases t with
    | nil => simp
    | cons b t2 =>
      simp only [List.length_cons]
      rw [if_pos (by omega)]

/-- C9: when the URL path has fewer than two segments or the derived name
(second segment, trailing `.git` stripped) is empty, the repository is
skipped with no output directory and no writes; for every other URL the
derived name is non-empty. -/
theorem spec_c9_invalid_url (repoUrl urlPath : String) (cloneOk : Bool)
    (tmpPre : List String) (tree : List WalkDir) (files : List SrcFile)
    (ct nowStr startS endS durS extractTs : String) (mbStr : Nat → String) :
    (((pathParts urlPath).length < 2 ∨ derivedRepoName urlPath = "") →
      process_repository repoUrl urlPath cloneOk tmpPre tree files
          ct nowStr startS endS durS extractTs mbStr
        = { outputDirCreated := false, writes := [] }) ∧
    (2 ≤ (pathParts urlPath).length ∧ derivedRepoName urlPath ≠ "" →
      get_repo_name_from_url urlPath = some (derivedRepoName urlPath) ∧
        derivedRepoName urlPath ≠ "") := by
  constructor
  · intro hbad
    have hn : get_repo_name_from_url urlPath = none ∨
        get_repo_name_from_url urlPath = some "" := by
      rcases hbad with hlen | hder
      · left
        rw [get_eq_derived, if_neg (by omega)]
      · by_cases h2 : 2 ≤ (pathParts urlPath).length
        · right
          rw [get_eq_derived, if_pos h2, hder]
        · left
          rw [get_eq_derived, if_neg h2]
    unfold process_repository
    rcases hn with hn | hn
    · rw [hn]
    · rw [hn]
      simp
  · rintro ⟨h2, hne⟩
    exact ⟨by rw [get_eq_derived, if_pos h2], hne⟩

/-- C9 witness: `/onlyone` has a single path segment, so the repository is
skipped with no output-directory side effects. -/
theorem spec_c9_witness :
    ((pathParts "/onlyone").length < 2 ∨ derivedRepoName "/onlyone" = "") ∧
    process_repository "u" "/onlyone" true [] [] [] "c" "n" "s" "e" "d" "x"
        (fun _ => "")
      = { outputDirCreated := false, writes := [] } :=
  ⟨Or.inl (by decide),
   (spec_c9_invalid_url "u" "/onlyone" true [] [] [] "c" "n" "s" "e" "d" "x"
     (fun _ => "")).1 (Or.inl (by decide))⟩

end RepoTool
